import Mathlib

/-!
Verification development for the logolang compiler core
(`logolang/codegen.py`, `logolang/symtable.py`, `logolang/syntrans.py`,
`logolang/compiler.py`).

The Python source is shallowly embedded: Python numbers become `Int`/`ℚ`,
fallible Python code (exceptions) becomes `Except PyErr`, the mutable
symbol table becomes an explicit `SymTable` state threaded through the
operations, and the `true`/`false` jump targets that the translator
assigns onto boolean IR nodes after construction are passed as explicit
`Option String` parameters of code generation, exactly as the spec's
design notes recommend for a functional rendering.
-/

/-- The Python type objects `int`, `float`, `bool`, `str` used as the
`datatype` of IR nodes and symbols. -/
inductive Ty where
  | tInt
  | tFloat
  | tBool
  | tStr
deriving DecidableEq, Repr

/-- Python runtime values appearing as literal values of IR nodes and
symbols.  Python floats are modelled as rationals; `none` is Python's
`None` (e.g. `dict.get` on a missing key). -/
inductive PyVal where
  | int (z : Int)
  | float (q : ℚ)
  | str (s : String)
  | bool (b : Bool)
  | none
deriving DecidableEq, Repr

/-- The Python exceptions the embedded code can raise. -/
inductive PyErr where
  | typeError
  | zeroDivisionError
  | keyError (k : String)
  | attributeError (a : String)
  | indexError
  | internalError (msg : String)
  | logoLinkerError (msg : String)
  | invalidExpressionType (msg : String)
  | symbolRedeclaration (symbol : String)
  | recursionError
  | unrepresentable
deriving DecidableEq, Repr

/-- `str()` of a value, as used in f-strings such as `f"PUSH {self.value}"`.
Floats are rendered through ℚ's printer (a modelling simplification of
Python's float formatting; no claim inspects the digits). -/
def pyStr : PyVal → String
  | .int z => toString z
  | .float q => toString q
  | .str s => s
  | .bool b => if b then "True" else "False"
  | .none => "None"

/-- ASCII upper-casing of one character (`str.upper` restricted to the
ASCII identifiers this language's lexer produces); written as an explicit
table so that it reduces definitionally. -/
def charUp : Char → Char
  | 'a' => 'A' | 'b' => 'B' | 'c' => 'C' | 'd' => 'D' | 'e' => 'E'
  | 'f' => 'F' | 'g' => 'G' | 'h' => 'H' | 'i' => 'I' | 'j' => 'J'
  | 'k' => 'K' | 'l' => 'L' | 'm' => 'M' | 'n' => 'N' | 'o' => 'O'
  | 'p' => 'P' | 'q' => 'Q' | 'r' => 'R' | 's' => 'S' | 't' => 'T'
  | 'u' => 'U' | 'v' => 'V' | 'w' => 'W' | 'x' => 'X' | 'y' => 'Y'
  | 'z' => 'Z'
  | c => c

/-- `str.upper()` over the ASCII alphabet. -/
def pyUpper (s : String) : String :=
  ⟨s.data.map charUp⟩

/-- `str.startswith(p)`. -/
def pyStartsWith (s p : String) : Bool :=
  p.data.isPrefixOf s.data

/-- Calling a Python type object with no arguments (`self.type()`):
the zero value of the type. -/
def zeroOf : Ty → PyVal
  | .tInt => .int 0
  | .tFloat => .float 0
  | .tBool => .bool false
  | .tStr => .str ""

/-- Read a value as a Python `int` where implicit bool→int coercion
applies (`True == 1`, `False == 0`). -/
def toIntVal : PyVal → Option Int
  | .int z => some z
  | .bool b => some (if b then 1 else 0)
  | _ => Option.none

/-- Read a value as a Python number (int, bool or float), as a rational. -/
def toQVal : PyVal → Option ℚ
  | .int z => some (z : ℚ)
  | .bool b => some (if b then 1 else 0)
  | .float q => some q
  | _ => Option.none

/-- A Python binary numeric operation that keeps `int` when both operands
are integral and produces `float` otherwise (`operator.add`, `sub`, `mul`). -/
def pyNumBin (fInt : Int → Int → Int) (fQ : ℚ → ℚ → ℚ) (a b : PyVal) :
    Except PyErr PyVal :=
  match toIntVal a, toIntVal b with
  | some x, some y => .ok (.int (fInt x y))
  | _, _ =>
    match toQVal a, toQVal b with
    | some p, some q => .ok (.float (fQ p q))
    | _, _ => .error .typeError

/-- `operator.add`. -/
def pyAdd (a b : PyVal) : Except PyErr PyVal :=
  pyNumBin (· + ·) (· + ·) a b

/-- `operator.sub`. -/
def pySub (a b : PyVal) : Except PyErr PyVal :=
  pyNumBin (· - ·) (· - ·) a b

/-- `operator.mul`. -/
def pyMul (a b : PyVal) : Except PyErr PyVal :=
  pyNumBin (· * ·) (· * ·) a b

/-- `operator.truediv`: always a float; division by zero raises. -/
def pyDiv (a b : PyVal) : Except PyErr PyVal :=
  match toQVal a, toQVal b with
  | some p, some q =>
    if q = 0 then .error .zeroDivisionError else .ok (.float (p / q))
  | _, _ => .error .typeError

/-- `operator.mod`: Python `%`, floor modulo (result has the divisor's
sign); `int % int` stays `int`. -/
def pyMod (a b : PyVal) : Except PyErr PyVal :=
  match toIntVal a, toIntVal b with
  | some x, some y =>
    if y = 0 then .error .zeroDivisionError else .ok (.int (Int.fmod x y))
  | _, _ =>
    match toQVal a, toQVal b with
    | some p, some q =>
      if q = 0 then .error .zeroDivisionError
      else .ok (.float (p - q * (⌊p / q⌋ : Int)))
    | _, _ => .error .typeError

/-- `operator.pow`: `int ** nonnegative int` is `int`; an integral
exponent otherwise gives a float power; a fractional exponent is a real
surd, not representable in this rational model (`unrepresentable`). -/
def pyPow (a b : PyVal) : Except PyErr PyVal :=
  match toIntVal a, toIntVal b with
  | some x, some y =>
    if 0 ≤ y then .ok (.int (x ^ y.toNat))
    else if x = 0 then .error .zeroDivisionError
    else .ok (.float ((x : ℚ) ^ y))
  | _, _ =>
    match toQVal a, toQVal b with
    | some p, some q =>
      if q.den = 1 then
        if p = 0 ∧ q.num < 0 then .error .zeroDivisionError
        else .ok (.float (p ^ q.num))
      else .error .unrepresentable
    | _, _ => .error .typeError

/-- The call-site view of a resolved procedure symbol used by
`CallProcedure.gen_code` (`codegen.py`): the fields of the symbol dict it
reads.  A snapshot of the symbol taken at construction. -/
structure CalledSym where
  cname : String
  ctarget : Option String := Option.none
  creverseArgs : Bool := false
  cprecode : List String := []
  cpostcode : List String := []
deriving DecidableEq, Repr

/-- The IR node classes of `codegen.py`.  The mutable `true`/`false` jump
targets assigned onto boolean nodes after construction are modelled by the
`withT` wrapper (the stored targets), and bare nodes inside a block carry
their default `None`/`None` targets.
* `constV` — `ConstValue`; `refV` — `ReferenceValue` (snapshot of the
  symbol fields `name`, `scope`, `datatype`, `value` that it reads);
* `binOp` — `BinaryOperator`; `relOp` — `RelationalOperator`;
* `boolVal` — `BooleanValue`; `boolOp` — `BooleanOperator`
  (`rhs` is `None` for `NOT`);
* `labelE` — `Label`; `blockE` — `CodeBlock`; `noOp` — `NoOp`;
* `callP` — `CallProcedure` with its `CallParam` list (each parameter is
  an IR node or, for `out` parameters, a symbol — `paramSym`), plus the
  optional `type`/`is_const` attributes installed through `kwargs`;
* `strE` — a bare Python string stored inside a block or body;
* `pyNone` — Python `None` stored where a node is expected. -/
inductive Expr where
  | constV (value : PyVal) (datatype : Ty)
  | refV (name : String) (scope : String) (datatype : Option Ty)
      (value : Option PyVal)
  | binOp (op : String) (lhs rhs : Expr)
  | relOp (op : String) (lhs rhs : Expr)
  | boolVal (value : Bool)
  | boolOp (op : String) (lhs : Expr) (rhs : Option Expr)
  | labelE (name : String)
  | blockE (items : List Expr)
  | noOp
  | callP (sym : CalledSym) (params : List (Expr × String))
      (ctype : Option Ty) (cconst : Option Bool)
  | paramSym (name : String)
  | strE (s : String)
  | pyNone
  | withT (e : Expr) (t f : Option String)
deriving Repr

/-- The `.type` property of each node class.  Reading it on an object
that does not define it (a `Label`, a `CodeBlock`, a raw string, `None`,
or a `CallProcedure` built without a `type` keyword — its `type` property
is commented out in the source) raises `AttributeError`. -/
def Expr.typeE : Expr → Except PyErr Ty
  | .constV _ dt => .ok dt
  | .refV _ _ dt _ => .ok (dt.getD .tFloat)
  | .binOp _ l r => do
    let lt ← l.typeE
    let rt ← r.typeE
    if lt = rt then .ok lt
    else if lt = .tFloat ∨ rt = .tFloat then .ok .tFloat
    else .ok .tInt
  | .relOp _ _ _ => .ok .tBool
  | .boolVal _ => .ok .tBool
  | .boolOp _ _ _ => .ok .tBool
  | .callP _ _ ty _ => match ty with
    | some t => .ok t
    | Option.none => .error (.attributeError "type")
  | .withT e _ _ => e.typeE
  | _ => .error (.attributeError "type")

/-- The `is_const` property of each node class; `AttributeError` on
classes that do not define it. -/
def Expr.isConst : Expr → Except PyErr Bool
  | .constV _ _ => .ok true
  | .refV _ _ _ _ => .ok false
  | .binOp _ l r => do
    let lc ← l.isConst
    let rc ← r.isConst
    .ok (lc && rc)
  | .relOp _ l r => do
    let lc ← l.isConst
    let rc ← r.isConst
    .ok (lc && rc)
  | .boolVal _ => .ok true
  | .boolOp _ l r => do
    let lc ← l.isConst
    match r with
    | Option.none => .ok lc
    | some rr => do
      let rc ← rr.isConst
      .ok (lc && rc)
  | .callP _ _ _ c => match c with
    | some b => .ok b
    | Option.none => .error (.attributeError "is_const")
  | .withT e _ _ => e.isConst
  | _ => .error (.attributeError "is_const")

/-- The `value` attribute/property of each node class.
`BinaryOperator.value` (`codegen.py:133-148`) builds the operator table
only when `is_const` holds, fetches the entry with a default returning
the zero of the node's type, and applies it to the operands' `value`s
(which Python evaluates before the call in either case).
`ReferenceValue.value` is `symbol.get("value")`, i.e. `None` when the
symbol has none.  `BooleanOperator` defines no `value`. -/
def Expr.value : Expr → Except PyErr PyVal
  | .constV v _ => .ok v
  | .refV _ _ _ v => .ok (v.getD .none)
  | .boolVal b => .ok (.bool b)
  | .binOp op l r => do
    let c ← Expr.isConst (.binOp op l r)
    let vl ← l.value
    let vr ← r.value
    if c then
      match op with
      | "+" => pyAdd vl vr
      | "-" => pySub vl vr
      | "*" => pyMul vl vr
      | "/" => pyDiv vl vr
      | "%" => pyMod vl vr
      | "^" => pyPow vl vr
      | _ => do
        let t ← Expr.typeE (.binOp op l r)
        .ok (zeroOf t)
    else do
      let t ← Expr.typeE (.binOp op l r)
      .ok (zeroOf t)
  | .withT e _ _ => e.value
  | _ => .error (.attributeError "value")

/-- `str.format(true=..., false=...)` as used by
`RelationalOperator.gen_code`: substitutes the `\x7btrue\x7d` and
`\x7bfalse\x7d` placeholders in a template (character-level model of the
Python format call restricted to the placeholders the source uses). -/
def fmtTFChars (t f : String) : List Char → List Char
  | '\x7b' :: 't' :: 'r' :: 'u' :: 'e' :: '\x7d' :: rest =>
    t.data ++ fmtTFChars t f rest
  | '\x7b' :: 'f' :: 'a' :: 'l' :: 's' :: 'e' :: '\x7d' :: rest =>
    f.data ++ fmtTFChars t f rest
  | c :: rest => c :: fmtTFChars t f rest
  | [] => []

/-- String-level wrapper of `fmtTFChars`. -/
def fmtTF (t f : String) (s : String) : String :=
  ⟨fmtTFChars t f s.data⟩

/-- `instr.format(params=..., params_len=...)` from
`CallProcedure.gen_code.format_instr`, restricted to the placeholders the
standard library uses (`\x7bparams_len\x7d` and `\x7bparams[0].name\x7d`). -/
def fmtCallChars (pname : String) (plen : Nat) : List Char → List Char
  | '\x7b' :: 'p' :: 'a' :: 'r' :: 'a' :: 'm' :: 's' :: '_' :: 'l' :: 'e'
      :: 'n' :: '\x7d' :: rest =>
    (toString plen).data ++ fmtCallChars pname plen rest
  | '\x7b' :: 'p' :: 'a' :: 'r' :: 'a' :: 'm' :: 's' :: '[' :: '0' :: ']'
      :: '.' :: 'n' :: 'a' :: 'm' :: 'e' :: '\x7d' :: rest =>
    pname.data ++ fmtCallChars pname plen rest
  | c :: rest => c :: fmtCallChars pname plen rest
  | [] => []

/-- `entry.format(**symbol)` from `FunctionDefinition.gen_code`,
restricted to the placeholders the standard library's bodies use
(`\x7bargv[0]\x7d`, `\x7bargv[1]\x7d`, `\x7bname\x7d`). -/
def fmtSymChars (name : String) (argv : List String) : List Char → List Char
  | '\x7b' :: 'a' :: 'r' :: 'g' :: 'v' :: '[' :: '0' :: ']' :: '\x7d'
      :: rest =>
    (argv.getD 0 "").data ++ fmtSymChars name argv rest
  | '\x7b' :: 'a' :: 'r' :: 'g' :: 'v' :: '[' :: '1' :: ']' :: '\x7d'
      :: rest =>
    (argv.getD 1 "").data ++ fmtSymChars name argv rest
  | '\x7b' :: 'n' :: 'a' :: 'm' :: 'e' :: '\x7d' :: rest =>
    name.data ++ fmtSymChars name argv rest
  | c :: rest => c :: fmtSymChars name argv rest
  | [] => []

/-- String-level wrapper of `fmtSymChars`. -/
def fmtSym (name : String) (argv : List String) (s : String) : String :=
  ⟨fmtSymChars name argv s.data⟩

/-- The `test` table of `RelationalOperator.gen_code` (`codegen.py:355`):
for each of the six operators, the `ifTrue` and `ifFalse` instruction
templates.  `test[self.oper]` on any other operator raises `KeyError`. -/
def relTest (op : String) : Option (List String × List String) :=
  match op with
  | "<" => some (["JLESS :\x7btrue\x7d"], ["JMORE :\x7bfalse\x7d", "JZ :\x7bfalse\x7d"])
  | "<=" => some (["JLESS :\x7btrue\x7d", "JZ :\x7btrue\x7d"], ["JMORE :\x7bfalse\x7d"])
  | ">" => some (["JMORE :\x7btrue\x7d"], ["JLESS :\x7bfalse\x7d", "JZ :\x7bfalse\x7d"])
  | ">=" => some (["JMORE :\x7btrue\x7d", "JZ :\x7btrue\x7d"], ["JLESS :\x7bfalse\x7d"])
  | "==" => some (["JZ :\x7btrue\x7d"], ["JNZ :\x7bfalse\x7d"])
  | "<>" => some (["JNZ :\x7btrue\x7d"], ["JZ :\x7bfalse\x7d"])
  | _ => Option.none

/-- The `operators` table of `BinaryOperator.gen_code` (`codegen.py:152`). -/
def binOpCodes (op : String) : Option (List String) :=
  match op with
  | "+" => some ["ADD"]
  | "-" => some ["SUB"]
  | "*" => some ["MUL"]
  | "/" => some ["DIV"]
  | "%" => some ["IDIV", "POP"]
  | "^" => some ["POW"]
  | _ => Option.none

/-- `self.true.name if self.true else None` rendered into a format
argument: a missing target prints as the string `None`. -/
def labelArg (o : Option String) : String :=
  o.getD "None"

/-- `list(s)` extension of a code list by a bare string: Python
`list.extend(str)` appends the string's characters one by one
(the `CallParam.gen_code` branch that returns a plain string). -/
def charSplit (s : String) : List String :=
  s.data.map (fun c => String.mk [c])

/-- The parameter name read by `\x7bparams[0].name\x7d`
(`CallParam.name`, which indexes the underlying symbol dict; only symbol
payloads carry one). -/
def firstParamName : List (Expr × String) → String
  | (.paramSym n, _) :: _ => n
  | _ => ""

/-- `gen_code` of every IR node class, with the node's stored
`true`/`false` targets passed explicitly and a fuel argument standing in
for Python's call stack (exhaustion models `RecursionError`; every claim
is settled at sufficient fuel).  Faithful to `codegen.py`:
* `ConstValue` pushes `str(value)`;
* `ReferenceValue` loads `scope.name`, or the bare name if the scope is
  empty;
* `BinaryOperator` emits operand code then the mapped mnemonics;
* `RelationalOperator` first indexes the `test` table (KeyError on an
  unknown operator), picks the branch shape from which targets are real,
  emits operand code, `SUB`, `POP`, the branch, and formats every line
  with the target names (`None` for a missing target);
* `BooleanValue` pushes a canonical encoding when no target is assigned,
  jumps on a matching target, else emits nothing;
* `BooleanOperator` on an all-constant node reads `self.value`, which the
  class does not define (`AttributeError`); the non-constant paths
  propagate targets to the operands (`NOT` swaps, `AND` forces the left
  `true` to fall-through, `OR` shares both), `AND`/`OR` with a missing
  right operand dereference `None` (`AttributeError`), and an unknown
  operator falls back to the empty list;
* `Label` emits its marker; `CodeBlock` concatenates, passing raw strings
  through; `CallProcedure` emits parameter code (reversed on demand,
  `out` parameters and plain-symbol payloads as in `CallParam.gen_code`),
  formatted precode, the `CALL`, and formatted postcode;
* objects with no `gen_code` attribute raise `AttributeError`. -/
def genCode : Nat → Expr → Option String → Option String →
    Except PyErr (List String)
  | 0, _, _, _ => .error .recursionError
  | Nat.succ fuel, e, tt, ff =>
    match e with
    | .noOp => .ok []
    | .constV v _ => .ok ["PUSH " ++ pyStr v]
    | .refV name scope _ _ =>
      if scope ≠ "" then .ok ["LOAD " ++ scope ++ "." ++ name]
      else .ok ["LOAD " ++ name]
    | .binOp op l r => do
      let lc ← genCode fuel l Option.none Option.none
      let rc ← genCode fuel r Option.none Option.none
      match binOpCodes op with
      | some ops => .ok (lc ++ rc ++ ops)
      | Option.none => .error (.keyError op)
    | .relOp op l r =>
      match relTest op with
      | Option.none => .error (.keyError op)
      | some (tl, fl) =>
        let branch :=
          if tt.isSome ∧ ff.isSome then tl ++ ["JP :\x7bfalse\x7d"]
          else if tt.isSome then tl
          else if ff.isSome then fl
          else []
        do
          let lc ← genCode fuel l Option.none Option.none
          let rc ← genCode fuel r Option.none Option.none
          .ok ((lc ++ rc ++ ["SUB", "POP"] ++ branch).map
            (fmtTF (labelArg tt) (labelArg ff)))
    | .boolVal b =>
      match tt, ff with
      | Option.none, Option.none =>
        .ok ["PUSH " ++ (if b then "0" else "1"), "CMP 0"]
      | _, _ =>
        match b, tt, ff with
        | true, some t, _ => .ok ["JP :" ++ t]
        | false, _, some f => .ok ["JP :" ++ f]
        | _, _, _ => .ok []
    | .boolOp op l r => do
      let c ← Expr.isConst (.boolOp op l r)
      if c then do
        let _ ← Expr.value (.boolOp op l r)
        .error (.attributeError "code_gen")
      else
        match op with
        | "NOT" => genCode fuel l ff tt
        | "AND" =>
          match r with
          | Option.none => .error (.attributeError "true")
          | some rr => do
            let a ← genCode fuel l Option.none ff
            let b ← genCode fuel rr tt ff
            .ok (a ++ b)
        | "OR" =>
          match r with
          | Option.none => .error (.attributeError "true")
          | some rr => do
            let a ← genCode fuel l tt ff
            let b ← genCode fuel rr tt ff
            .ok (a ++ b)
        | _ => .ok []
    | .labelE name => .ok [":" ++ name]
    | .blockE items =>
      items.foldlM (fun acc it =>
        match it with
        | .strE s => pure (acc ++ [s])
        | _ => do
          let c ← genCode fuel it Option.none Option.none
          pure (acc ++ c)) []
    | .callP sym params _ _ => do
      let plist := if sym.creverseArgs then params.reverse else params
      let pcode ← plist.foldlM (fun acc pp =>
        if pp.2 = "out" then pure acc
        else
          match pp.1 with
          | .paramSym n => pure (acc ++ charSplit ("LOAD " ++ n))
          | pe => do
            let c ← genCode fuel pe Option.none Option.none
            pure (acc ++ c)) []
      let fInstr := fun (s : String) =>
        ⟨fmtCallChars (firstParamName params) params.length s.data⟩
      let called := sym.ctarget.getD sym.cname
      .ok (pcode ++ sym.cprecode.map fInstr ++ ["CALL " ++ called]
        ++ sym.cpostcode.map fInstr)
    | .withT e2 t2 f2 => genCode fuel e2 t2 f2
    | .paramSym _ => .error (.attributeError "gen_code")
    | .strE _ => .error (.attributeError "gen_code")
    | .pyNone => .error (.attributeError "gen_code")

/-- `BinaryOperator.__new__` (`codegen.py:108-117`): rejects `str`
operands, and a `bool` operand mixed with a different type; otherwise
builds the node. -/
def mkBinOp (op : String) (l r : Expr) : Except PyErr Expr := do
  let lt ← l.typeE
  if lt = .tStr then
    .error (.internalError "Operations for 'str' not available.")
  else do
    let rt ← r.typeE
    if rt = .tStr then
      .error (.internalError "Operations for 'str' not available.")
    else if lt ≠ rt ∧ (lt = .tBool ∨ rt = .tBool) then
      .error (.internalError "Invalid operation with 'bool' and 'number'.")
    else .ok (.binOp op l r)

/-- `RelationalOperator.__init__` (`codegen.py:314-329`), including the
source's operator precedence: the condition is
`lhs.type == str or (rhs.type == str and oper not in ["==", "<>"])`,
so a `str` left operand is rejected regardless of the operator. -/
def mkRelOp (op : String) (l r : Expr) : Except PyErr Expr := do
  let lt ← l.typeE
  let strBad ←
    if lt = .tStr then pure true
    else do
      let rt ← r.typeE
      if rt = .tStr ∧ ¬ (op = "==" ∨ op = "<>") then pure true
      else pure false
  if strBad then
    .error (.internalError "Relational operators for 'str' are not available.")
  else do
    let rt ← r.typeE
    if lt ≠ rt ∧ (lt = .tBool ∨ rt = .tBool) then
      .error
        (.internalError "Invalid relation operation with 'bool' and 'number'.")
    else .ok (.relOp op l r)

/-- `p_boolean_relop` (`syntrans.py:322-338`): rejects `bool` operands,
rejects a `str` operand compared against another type, allows `str` only
with `==`/`<>`, then constructs the `RelationalOperator`. -/
def pBooleanRelop (op : String) (l r : Expr) : Except PyErr Expr := do
  let lt ← l.typeE
  if lt = .tBool then
    .error (.invalidExpressionType "Invalid data type:bool")
  else do
    let rt ← r.typeE
    if rt = .tBool then
      .error (.invalidExpressionType "Invalid data type:bool")
    else if lt = .tStr ∨ rt = .tStr then
      if lt ≠ rt then
        .error
          (.invalidExpressionType "Cannot compare STRING to other data type")
      else if ¬ (op = "==" ∨ op = "<>") then
        .error (.invalidExpressionType "Can only compare STRING equality")
      else mkRelOp op l r
    else mkRelOp op l r

/-- `Label.__new_label` names: the n-th synthesized label. -/
def mkLabelName (n : Nat) : String :=
  "_@trgt_" ++ toString n

/-- `p_opt_else` (`syntrans.py:287-292`): returns the empty list for a
missing `ELSE` branch and the branch body otherwise.  The result is a
Python value that could in principle be `None` (hence the `Option`), but
both productions return a real list. -/
def pOptElse : Option (List Expr) → Option (List Expr)
  | Option.none => some []
  | some body => some body

/-- `p_if_then_else_statement` (`syntrans.py:271-284`).  `cond` receives
`true := None` and a fresh `false` label; when the `opt_else` value is
not `None` (which is every value `p_opt_else` produces), a forced jump
to a second fresh join label and the join label itself are emitted around
the `ELSE` body.  The dead `else` branch of the source appends the
literal `None` after the `false` label.  The label counter is threaded
explicitly; returns the built block and the new counter. -/
def pIfThenElse (cond : Expr) (body : List Expr)
    (optElse : Option (List Expr)) (counter : Nat) : Expr × Nat :=
  let falseLbl := mkLabelName (counter + 1)
  let condT := Expr.withT cond Option.none (some falseLbl)
  match optElse with
  | some els =>
    let joinLbl := mkLabelName (counter + 2)
    let forceJp := Expr.withT (.boolVal true) (some joinLbl) Option.none
    (.blockE ([condT] ++ body ++ [forceJp, .labelE falseLbl] ++ els
      ++ [.labelE joinLbl]), counter + 2)
  | Option.none =>
    (.blockE ([condT] ++ body ++ [.labelE falseLbl, .pyNone]), counter + 1)

/-- The value of a symbol's `code` field: either a plain Python list of
statements (the synthetic `__main__` symbol before `p_program` wraps it)
or a `FunctionDefinition` whose `code` attribute is the body (possibly
`None`, which `compiler.code_gen` tests for). -/
inductive CodeVal where
  | pyList (items : List Expr)
  | funcDef (body : Option (List Expr))
deriving Repr

/-- A symbol-table entry (`symtable.py`).  Python symbols are dicts with
optional keys; the keyword fields this repository's call sites supply are
modelled as explicit fields, `Option` marking a possibly-missing key.
`lineno` is `-1` for library/compiler-synthesized symbols. -/
structure PySym where
  name : String
  type : String
  lineno : Int := -1
  usage : Nat := 0
  scope : String := ""
  fqsn : String := ""
  value : Option PyVal := Option.none
  datatype : Option Ty := Option.none
  argv : List String := []
  uses : List String := []
  aliasF : Option String := Option.none
  library : Bool := false
  internal : Bool := false
  generated : Bool := false
  graphics : Bool := false
  target : Option String := Option.none
  reverseArgs : Bool := false
  precode : List String := []
  postcode : List String := []
  code : Option CodeVal := Option.none
deriving Repr

/-- A scope frame: its name (empty for the top-level frame) and its
symbol mapping, an insertion-ordered association list keyed by the
upper-cased symbol name. -/
structure Scope where
  sname : String
  symbols : List (String × PySym)
deriving Repr

/-- The process-wide symbol table `__symtable`: the scope stack (head =
innermost) and the finalized class-partitioned tables for `FUNCTION` and
`VAR`, keyed by FQSN. -/
structure SymTable where
  scopes : List Scope := []
  funcs : List (String × PySym) := []
  vars : List (String × PySym) := []
deriving Repr

/-- Python `dict` lookup over the insertion-ordered association list. -/
def alookup (l : List (String × PySym)) (k : String) : Option PySym :=
  match l with
  | [] => Option.none
  | p :: rest => if p.1 = k then some p.2 else alookup rest k

/-- Python `dict` assignment: update in place, or append a new key. -/
def aset (l : List (String × PySym)) (k : String) (v : PySym) :
    List (String × PySym) :=
  match l with
  | [] => [(k, v)]
  | p :: rest => if p.1 = k then (k, v) :: rest else p :: aset rest k v

/-- `__symtable[cls]`: the class-partitioned table for a class name.
Only `FUNCTION` and `VAR` exist in the source's table. -/
def getClass (st : SymTable) (cls : String) : List (String × PySym) :=
  if cls = "FUNCTION" then st.funcs
  else if cls = "VAR" then st.vars
  else []

/-- `current_scope` (`symtable.py:56-61`): the dotted concatenation of
`@name` for every named scope, outermost first. -/
def currentScope (st : SymTable) : String :=
  ".".intercalate
    ((st.scopes.reverse.filter (fun s => s.sname ≠ "")).map
      (fun s => "@" ++ s.sname))

/-- `push_scope`. -/
def pushScope (st : SymTable) (name : String) : SymTable :=
  {st with scopes := ⟨name, []⟩ :: st.scopes}

/-- `pop_scope` (`symtable.py:48-53`): removes the innermost frame and
folds each of its symbols into the class table of the symbol's `type`,
keyed by FQSN (original casing).  A class other than `FUNCTION`/`VAR`
would be a `KeyError` in the source. -/
def popScope (st : SymTable) : Except PyErr (SymTable × Scope) :=
  match st.scopes with
  | [] => .error .indexError
  | s :: rest => do
    let st2 ← s.symbols.foldlM (fun acc p =>
      if p.2.type = "FUNCTION" then
        pure {acc with funcs := aset acc.funcs p.2.fqsn p.2}
      else if p.2.type = "VAR" then
        pure {acc with vars := aset acc.vars p.2.fqsn p.2}
      else .error (.keyError p.2.type)) {st with scopes := rest}
    .ok (st2, s)

/-- The scope-chain search of `get_symbol` (`symtable.py:64-71`):
innermost to outermost, optionally restricted to one named scope; a hit
with the wrong class does not return — the search continues outward.
Returns the frame index (0 = innermost) together with the symbol. -/
def findScopeSym : List Scope → Option String → String → Option String →
    Option (Nat × PySym)
  | [], _, _, _ => Option.none
  | s :: rest, scn, key, ty =>
    let next := (findScopeSym rest scn key ty).map (fun p => (p.1 + 1, p.2))
    if scn = Option.none ∨ scn = some s.sname then
      match alookup s.symbols key with
      | some sym =>
        if ty = Option.none ∨ ty = some sym.type then some (0, sym) else next
      | Option.none => next
    else next

/-- `get_symbol` (`symtable.py:64-74`): upper-cases the name, walks the
scope chain, and — only when a class filter was given with no scope
filter — falls back to the finalized class table, still with the
upper-cased name as the key. -/
def getSymbol (st : SymTable) (symbol : String)
    (scopename symtype : Option String) : Option PySym :=
  let key := (pyUpper symbol)
  match findScopeSym st.scopes scopename key symtype with
  | some (_, s) => some s
  | Option.none =>
    match symtype, scopename with
    | some ty, Option.none => alookup (getClass st ty) key
    | _, _ => Option.none

/-- The location of a symbol inside the table: a scope frame (by index
from the innermost) or a class table, with the storage key.  Stands in
for the object identity through which Python mutates the found dict. -/
inductive Loc where
  | inScope (idx : Nat) (key : String)
  | inClass (cls : String) (key : String)
deriving DecidableEq, Repr

/-- Apply `f` to the symbol stored under `key` in the `idx`-th frame. -/
def updScopes : List Scope → Nat → String → (PySym → PySym) → List Scope
  | [], _, _, _ => []
  | s :: rest, 0, key, f =>
    {s with symbols := s.symbols.map (fun p => if p.1 = key then (p.1, f p.2) else p)} :: rest
  | s :: rest, Nat.succ i, key, f => s :: updScopes rest i key f

/-- Mutate the symbol at a location (Python's in-place dict update). -/
def updateAt (st : SymTable) (loc : Loc) (f : PySym → PySym) : SymTable :=
  match loc with
  | .inScope i key => {st with scopes := updScopes st.scopes i key f}
  | .inClass cls key =>
    if cls = "FUNCTION" then
      {st with funcs := st.funcs.map (fun p => if p.1 = key then (p.1, f p.2) else p)}
    else if cls = "VAR" then
      {st with vars := st.vars.map (fun p => if p.1 = key then (p.1, f p.2) else p)}
    else st

/-- Read the symbol at a location. -/
def readAt (st : SymTable) (loc : Loc) : Option PySym :=
  match loc with
  | .inScope i key =>
    match st.scopes.get? i with
    | some s => alookup s.symbols key
    | Option.none => Option.none
  | .inClass cls key => alookup (getClass st cls) key

/-- The keyword arguments (`**kwargs`) supplied to `add_symbol`, limited
to the keys this repository's call sites pass.  Note `lineno` is a named
parameter of `add_symbol`, never part of `**kwargs`, so the source's
`del kwargs["lineno"]` can never fire and the merge step can never touch
an existing symbol's declaration line. -/
structure Patch where
  pname : Option String := Option.none
  pvalue : Option PyVal := Option.none
  pdatatype : Option Ty := Option.none
  pargv : Option (List String) := Option.none
  puses : Option (List String) := Option.none
  palias : Option String := Option.none
  pusage : Option Nat := Option.none
  plibrary : Option Bool := Option.none
  pinternal : Option Bool := Option.none
  pgraphics : Option Bool := Option.none
  ptarget : Option String := Option.none
  pcode : Option CodeVal := Option.none
deriving Repr

/-- `sym.update(kwargs)` / `{**defaults, **kwargs}`: each supplied key
overwrites the field, everything else is kept. -/
def applyPatch (s : PySym) (p : Patch) : PySym :=
  {s with
    name := p.pname.getD s.name
    value := if p.pvalue.isSome then p.pvalue else s.value
    datatype := if p.pdatatype.isSome then p.pdatatype else s.datatype
    argv := p.pargv.getD s.argv
    uses := p.puses.getD s.uses
    aliasF := if p.palias.isSome then p.palias else s.aliasF
    usage := p.pusage.getD s.usage
    library := p.plibrary.getD s.library
    internal := p.pinternal.getD s.internal
    graphics := p.pgraphics.getD s.graphics
    target := if p.ptarget.isSome then p.ptarget else s.target
    code := if p.pcode.isSome then p.pcode else s.code}

/-- The argv-qualification step at the end of `add_symbol`
(`symtable.py:113-120`): every parameter name not already scope-qualified
is prefixed with `scope@name.`. -/
def normalizeArgv (s : PySym) : PySym :=
  let argScope := (if s.scope ≠ "" then s.scope else "") ++ "@" ++ s.name
  {s with argv := s.argv.map (fun a => if pyStartsWith a "@" then a else argScope ++ "." ++ a)}

/-- `add_symbol` (`symtable.py:77-121`).  An existing same-class symbol
is merged (a recorded literal value survives when the declaration line is
real; renaming is an internal error); a missing one is created in the
innermost frame with a freshly computed FQSN; both paths end with the
argv qualification. -/
def addSymbol (st : SymTable) (symbol symtype : String) (lineno : Int)
    (kw : Patch) : Except PyErr (SymTable × PySym) :=
  match findScopeSym st.scopes Option.none (pyUpper symbol) Option.none with
  | some (i, sym0) =>
    if sym0.type ≠ symtype then .error (.symbolRedeclaration symbol)
    else
      let kw1 :=
        if sym0.lineno ≥ 0 ∧ sym0.value.isSome ∧ kw.pvalue.isSome then
          {kw with pvalue := Option.none}
        else kw
      if kw1.pname.isSome then
        .error (.internalError "Cannot modify object 'name'.")
      else
        let sym2 := normalizeArgv (applyPatch sym0 kw1)
        .ok (updateAt st (.inScope i (pyUpper symbol)) (fun _ => sym2), sym2)
  | Option.none =>
    match st.scopes with
    | [] => .error .indexError
    | s :: rest =>
      let symScope := currentScope st
      let fqsn := if symScope ≠ "" then symScope ++ "." ++ symbol else symbol
      let base : PySym :=
        {name := symbol, type := symtype, lineno := lineno, usage := 0,
          scope := symScope, fqsn := fqsn}
      let sym2 := normalizeArgv (applyPatch base kw)
      .ok ({st with
        scopes := {s with symbols := aset s.symbols (pyUpper symbol) sym2}
          :: rest}, sym2)

/-- `".@".join(lvl for lvl in [scope, name] if lvl)` from
`increase_symbol_usage`. -/
def joinScopeName (scope name : String) : String :=
  ".@".intercalate (([scope, name].filter (fun x => x ≠ "")))

/-- The scope-qualification applied to each `argv`/`uses` entry in
`increase_symbol_usage` (`symtable.py:138-146`). -/
def qualifyUsageArg (sym : PySym) (arg : String) : String :=
  if sym.scope ≠ "" ∧ ¬ pyStartsWith arg "@" then
    "@" ++ joinScopeName sym.scope sym.name ++ "." ++ arg
  else arg

/-- The resolution performed at the top of `increase_symbol_usage`
(`symtable.py:125-130`): `get_symbol` with the class filter (scope chain
with the upper-cased key, then the finalized class table with the
upper-cased key), and then the extra raw-cased lookup into the class
table.  Returns where the symbol lives and its current value. -/
def locateUsage (st : SymTable) (symbol : String) (symtype : Option String) :
    Option (Loc × PySym) :=
  let key := (pyUpper symbol)
  match findScopeSym st.scopes Option.none key symtype with
  | some (i, s) => some (.inScope i key, s)
  | Option.none =>
    match symtype with
    | some ty =>
      match alookup (getClass st ty) key with
      | some s => some (.inClass ty key, s)
      | Option.none =>
        match alookup (getClass st ty) symbol with
        | some s => some (.inClass ty symbol, s)
        | Option.none => Option.none
    | Option.none => Option.none

/-- `sym["usage"] += 1`. -/
def bump (s : PySym) : PySym :=
  {s with usage := s.usage + 1}

/-- `increase_symbol_usage` (`symtable.py:124-147`): resolves the name
(internal error if impossible), bumps its counter, follows one `alias`
hop (bumping the aliasee, whose `argv`/`uses` then drive the recursion),
and recursively bumps every entry of the parameter list and the `uses`
list under the scope-qualification rule.  The fuel stands in for
Python's call stack. -/
def increaseSymbolUsage : Nat → SymTable → String → Option String →
    Except PyErr SymTable
  | 0, _, _, _ => .error .recursionError
  | Nat.succ fuel, st, symbol, symtype =>
    match locateUsage st symbol symtype with
    | Option.none =>
      .error (.internalError ("Increasing unknown symbol usage: " ++ symbol))
    | some (loc, sym0) =>
      let st1 := updateAt st loc bump
      let sym1 := bump sym0
      let next : Except PyErr (SymTable × PySym) :=
        match sym1.aliasF with
        | some a =>
          match findScopeSym st1.scopes Option.none (pyUpper a) Option.none with
          | Option.none =>
            .error
              (.internalError ("Increasing unknown symbol usage: " ++ symbol))
          | some (i, s2) =>
            .ok (updateAt st1 (.inScope i (pyUpper a)) bump, bump s2)
        | Option.none => .ok (st1, sym1)
      match next with
      | .error e => .error e
      | .ok (st2, sym2) =>
        (sym2.argv ++ sym2.uses).foldlM
          (fun acc arg =>
            increaseSymbolUsage fuel acc (qualifyUsageArg sym2 arg)
              (some "VAR"))
          st2

/-- `sym_value` inside `init_code` (`compiler.py:67-68`): the recorded
literal value, else the zero of the declared datatype, else `0`. -/
def symValueStr (s : PySym) : String :=
  match s.value with
  | some v => pyStr v
  | Option.none =>
    match s.datatype with
    | some dt => pyStr (zeroOf dt)
    | Option.none => pyStr (.int 0)

/-- `f"{sym['fqsn']:<8}"`: left-justify to a minimum width of 8. -/
def padTo8 (s : String) : String :=
  s ++ String.mk (List.replicate (8 - s.length) ' ')

/-- `init_code` (`compiler.py:29-73`) with the fixed `__main__` start the
caller passes: the `.START` directive, the `.INIT` directive when some
used function is flagged `graphics`, and the `.DATA` section listing
every `VAR` symbol with nonzero usage. -/
def initCode (st : SymTable) : List String :=
  let code := [".START __main__"]
  let code :=
    if st.funcs.any (fun p => p.2.usage > 0 && p.2.graphics) then
      code ++ ["", ".INIT 200 200 400 400"]
    else code
  let symbols := (st.vars.filter (fun p => p.2.usage > 0)).map Prod.snd
  if symbols.isEmpty then code
  else
    code ++ ["", ".DATA"]
      ++ symbols.map (fun s => padTo8 s.fqsn ++ " " ++ symValueStr s)

/-- `FunctionDefinition.gen_code` (`codegen.py:280-308`): nothing for an
`internal` symbol or one with usage zero; otherwise the `DEF` header, a
`STOR` per parameter (scope-qualifying unqualified names), the body
(raw strings formatted against the symbol, nodes via their `gen_code`),
and `HALT` for `__main__`, `RET` otherwise.  A `None` body would be a
`TypeError` when iterated. -/
def funcDefGenCode (fuel : Nat) (sym : PySym) (body : Option (List Expr)) :
    Except PyErr (List String) :=
  if sym.internal then .ok []
  else if ¬ sym.usage > 0 then .ok []
  else
    match body with
    | Option.none => .error .typeError
    | some entries => do
      let args := sym.argv.map (fun arg =>
        "STOR " ++ (if pyStartsWith arg "@" then arg
          else "@" ++ sym.name ++ "." ++ arg))
      let bodyCode ← entries.foldlM (fun acc entry =>
        match entry with
        | .strE s => pure (acc ++ [fmtSym sym.name sym.argv s])
        | _ => do
          let c ← genCode fuel entry Option.none Option.none
          pure (acc ++ c)) []
      let tail := if sym.name = "__main__" then ["HALT"] else ["RET"]
      .ok (["", "DEF " ++ sym.name ++ ":"] ++ args ++ bodyCode ++ tail)

/-- The per-function loop of `code_gen` (`compiler.py:89-117`).
`selected` is the usage-filtered dict; `genSet` records the keys whose
symbol dict was mutated with `generated = True` during this run (the
local `alias` variable of the source is assigned `None` and never
re-assigned, so the `if alias:` propagation is dead code and no second
mark is ever set).  Per entry: follow one `alias` redirect through
`selected`; `not func` raises the linker error; a non-library entry has
`func["code"].code` inspected — a missing `code` key is a `KeyError`, a
plain-list value an `AttributeError`, and a `None` body the linker
error; an entry not yet generated and not internal emits its code (a
falsy `code` value emits nothing) and is marked generated. -/
def codeGenLoop (fuel : Nat) (selected : List (String × PySym)) :
    List (String × PySym) → List String → List String →
    Except PyErr (List String)
  | [], _, acc => .ok acc
  | (name, func0) :: rest, genSet, acc =>
    let resolved : Option (String × PySym) :=
      match func0.aliasF with
      | some a => (alookup selected a).map (fun s => (a, s))
      | Option.none => some (name, func0)
    match resolved with
    | Option.none =>
      .error (.logoLinkerError ("Undefined function: '" ++ name ++ "'."))
    | some (key, func) =>
      let checkRes : Except PyErr Unit :=
        if func.library then .ok ()
        else
          match func.code with
          | Option.none => .error (.keyError "code")
          | some (.pyList _) => .error (.attributeError "code")
          | some (.funcDef Option.none) =>
            .error (.logoLinkerError ("Undefined function: '" ++ name ++ "'."))
          | some (.funcDef (some _)) => .ok ()
      match checkRes with
      | .error e => .error e
      | .ok _ =>
        if ¬ (func.generated ∨ genSet.contains key) ∧ ¬ func.internal then
          match func.code with
          | some (.funcDef b) => do
            let fc ← funcDefGenCode fuel func b
            codeGenLoop fuel selected rest (key :: genSet) (acc ++ fc)
          | some (.pyList items) =>
            if items.isEmpty then
              codeGenLoop fuel selected rest (key :: genSet) acc
            else .error (.attributeError "gen_code")
          | Option.none => codeGenLoop fuel selected rest (key :: genSet) acc
        else codeGenLoop fuel selected rest genSet acc

/-- `code_gen` (`compiler.py:76-118`): select the functions with nonzero
usage, build the `.START`/`.INIT`/`.DATA` prologue, open the `.CODE`
section, and run the emission loop over the selected functions in table
order. -/
def codeGen (fuel : Nat) (st : SymTable) : Except PyErr (List String) :=
  let selected := st.funcs.filter (fun p => p.2.usage > 0)
  codeGenLoop fuel selected selected [] (initCode st ++ ["", ".CODE"])

/-- A conditional branch mnemonic of the target VM as emitted by
`RelationalOperator.gen_code`: `JLESS`, `JMORE`, `JZ` or `JNZ`. -/
def isCondBranch (s : String) : Bool :=
  match s.data with
  | 'J' :: 'L' :: 'E' :: 'S' :: 'S' :: _ => true
  | 'J' :: 'M' :: 'O' :: 'R' :: 'E' :: _ => true
  | 'J' :: 'Z' :: _ => true
  | 'J' :: 'N' :: 'Z' :: _ => true
  | _ => false

/-- The unconditional branch mnemonic `JP`. -/
def isUncondBranch (s : String) : Bool :=
  match s.data with
  | 'J' :: 'P' :: _ => true
  | _ => false

/-- The spec's comparison semantics for constant folding, following its
words: "the operator's direct mathematical meaning (add, subtract,
multiply, true division, modulo, power)".  To be compared with the
`value` property translated from the source. -/
def specDirectEval (op : String) (a b : PyVal) : Except PyErr PyVal :=
  match op with
  | "+" => pyAdd a b
  | "-" => pySub a b
  | "*" => pyMul a b
  | "/" => pyDiv a b
  | "%" => pyMod a b
  | "^" => pyPow a b
  | _ => .error .typeError

/-- The member list of a `CodeBlock` node (empty for other nodes). -/
def blockItems : Expr → List Expr
  | .blockE l => l
  | _ => []

/-- The concrete `IF` condition `1 < 2` used to instantiate the
`IF`-without-`ELSE` claim. -/
def condC4 : Expr :=
  .relOp "<" (.constV (.int 1) .tInt) (.constV (.int 2) .tInt)

/-- The `__main__` symbol of the one-statement program `foo` (a call to
an undeclared procedure): usage forced to 1 at startup, its body the
single `CallProcedure` node the translator builds for the call. -/
def mainSymC3 : PySym :=
  {name := "__main__"
   type := "FUNCTION"
   lineno := 0
   usage := 1
   fqsn := "__main__"
   code := some (.funcDef (some
     [.callP {cname := "foo"} [] Option.none Option.none]))}

/-- The symbol `add_symbol` auto-creates at the call site of the
undeclared procedure `foo` (`p_primitive_call`): class `FUNCTION`,
sentinel line, usage bumped to 1 by `increase_symbol_usage`, and no
`code` key — exactly the state `code_gen` later trips over. -/
def fooSymC3 : PySym :=
  {name := "foo"
   type := "FUNCTION"
   usage := 1
   fqsn := "foo"}

/-- The finalized symbol table after translating the program `foo`
(standard library elided: `foo` matches no library entry, and unused
library symbols are filtered out by `code_gen`'s usage selection before
the loop runs, so they cannot change its outcome). -/
def stC3 : SymTable :=
  {funcs := [("__main__", mainSymC3), ("foo", fooSymC3)]}

/-- Result-state extractor for building concrete tables through the
embedded operations. -/
def exOkTable : Except PyErr (SymTable × PySym) → SymTable
  | .ok p => p.1
  | _ => {}

/-- Result-state extractor for `popScope`. -/
def exOkPop : Except PyErr (SymTable × Scope) → SymTable
  | .ok p => p.1
  | _ => {}

/-- The table right after declaring the function `square` (lower case)
in a fresh top-level scope. -/
def sqSt1 : SymTable :=
  exOkTable (addSymbol (pushScope {} "") "square" "FUNCTION" 3 {})

/-- `sqSt1` after the declaring scope has been popped: `square` now
lives only in the finalized `FUNCTION` table, keyed by its original-case
FQSN. -/
def sqSt2 : SymTable :=
  exOkPop (popScope sqSt1)

/-- The same pipeline with the upper-case declared name `SQUARE`. -/
def sqUpSt2 : SymTable :=
  exOkPop (popScope
    (exOkTable (addSymbol (pushScope {} "") "SQUARE" "FUNCTION" 3 {})))

/-- A used function with an empty body, for the dead-code-elimination
witness table. -/
def liveSymC6 : PySym :=
  {name := "LIVE"
   type := "FUNCTION"
   usage := 1
   fqsn := "LIVE"
   code := some (.funcDef (some []))}

/-- An unused (usage zero), non-library function whose body would emit an
instruction if it were ever generated. -/
def deadSymC6 : PySym :=
  {name := "DEAD"
   type := "FUNCTION"
   usage := 0
   fqsn := "DEAD"
   code := some (.funcDef (some [.strE "PUSH 1"]))}

/-- Witness table for dead-code elimination: one used and one unused
function. -/
def stC6 : SymTable :=
  {funcs := [("LIVE", liveSymC6), ("DEAD", deadSymC6)]}

/-- A zero-usage variable symbol for the usage-counting witness table. -/
def xVarC7 : PySym :=
  {name := "X"
   type := "VAR"
   fqsn := "X"}

/-- Usage-counting witness table: one variable `X` in the top-level
scope. -/
def stC7 : SymTable :=
  {scopes := [⟨"", [("X", xVarC7)]⟩]}

/-- A function whose parameter list names a variable, for the recursive
usage-propagation witness. -/
def funSymC7 : PySym :=
  {name := "F"
   type := "FUNCTION"
   fqsn := "F"
   argv := ["@F.A"]}

/-- The parameter variable of `funSymC7`. -/
def argVarC7 : PySym :=
  {name := "A"
   type := "VAR"
   scope := "@F"
   fqsn := "@F.A"}

/-- Usage-propagation witness table: the function `F` and its parameter
`@F.A`, both in the top-level scope. -/
def stC7b : SymTable :=
  {scopes := [⟨"", [("F", funSymC7), ("@F.A", argVarC7)]⟩]}

/-- A declared variable with a real declaration line and a recorded
literal value, for the merge-protection witness. -/
def xValSymC8 : PySym :=
  {name := "X"
   type := "VAR"
   lineno := 3
   fqsn := "X"
   value := some (.int 5)
   datatype := some .tInt}

/-- Merge-protection witness table. -/
def stC8 : SymTable :=
  {scopes := [⟨"", [("X", xValSymC8)]⟩]}

/-- The patch of a later `add_symbol` call that tries to supply another
literal value while also carrying a new datatype field. -/
def kwC8 : Patch :=
  {pvalue := some (.int 9)
   pdatatype := some .tFloat}

/-- The symbol record `add_symbol` creates for `square` declared at
line 3 in a fresh top-level scope (used to instantiate the lookup
claims). -/
def symSqC9 : PySym :=
  {name := "square"
   type := "FUNCTION"
   lineno := 3
   usage := 0
   scope := ""
   fqsn := "square"}

/-! ## Helper lemmas -/

theorem exceptOkBind {α β : Type} (a : α) (g : α → Except PyErr β) :
    (Except.ok a >>= g) = g a := rfl

theorem exceptErrBind {α β : Type} (e : PyErr) (g : α → Except PyErr β) :
    ((Except.error e : Except PyErr α) >>= g) = .error e := rfl

theorem exceptPure {α : Type} (a : α) : (pure a : Except PyErr α) = .ok a := rfl

theorem alookup_aset (l : List (String × PySym)) (k : String) (v : PySym) :
    alookup (aset l k v) k = some v := by
  induction l with
  | nil => simp [aset, alookup]
  | cons p rest ih =>
    by_cases h : p.1 = k
    · simp [aset, h, alookup]
    · simp [aset, h, alookup, ih]

theorem fmtTF_SUB (t f : String) : fmtTF t f "SUB" = "SUB" := by
  simp [fmtTF, fmtTFChars]

theorem fmtTF_POP (t f : String) : fmtTF t f "POP" = "POP" := by
  simp [fmtTF, fmtTFChars]

theorem fmtTF_JLESS (t f : String) :
    fmtTF t f "JLESS :\x7btrue\x7d" = "JLESS :" ++ t := by
  simp [fmtTF, fmtTFChars, String.ext_iff]

theorem fmtTF_JMORE (t f : String) :
    fmtTF t f "JMORE :\x7btrue\x7d" = "JMORE :" ++ t := by
  simp [fmtTF, fmtTFChars, String.ext_iff]

theorem fmtTF_JZ (t f : String) :
    fmtTF t f "JZ :\x7btrue\x7d" = "JZ :" ++ t := by
  simp [fmtTF, fmtTFChars, String.ext_iff]

theorem fmtTF_JNZ (t f : String) :
    fmtTF t f "JNZ :\x7btrue\x7d" = "JNZ :" ++ t := by
  simp [fmtTF, fmtTFChars, String.ext_iff]

theorem fmtTF_JP (t f : String) :
    fmtTF t f "JP :\x7bfalse\x7d" = "JP :" ++ f := by
  simp [fmtTF, fmtTFChars, String.ext_iff]

theorem isCondBranch_JLESS (t : String) :
    isCondBranch ("JLESS :" ++ t) = true := rfl

theorem isCondBranch_JMORE (t : String) :
    isCondBranch ("JMORE :" ++ t) = true := rfl

theorem isCondBranch_JZ (t : String) : isCondBranch ("JZ :" ++ t) = true := rfl

theorem isCondBranch_JNZ (t : String) :
    isCondBranch ("JNZ :" ++ t) = true := rfl

theorem isUncondBranch_JP (f : String) :
    isUncondBranch ("JP :" ++ f) = true := rfl

theorem filter_filter_of_imp {α : Type} (p q : α → Bool) (l : List α)
    (h : ∀ x ∈ l, q x = true → p x = true) :
    (l.filter p).filter q = l.filter q := by
  induction l with
  | nil => rfl
  | cons x rest ih =>
    have hrest : ∀ y ∈ rest, q y = true → p y = true :=
      fun y hy => h y (List.mem_cons_of_mem _ hy)
    by_cases hq : q x = true
    · have hp := h x (List.mem_cons_self _ _) hq
      simp [List.filter_cons, hp, hq, ih hrest]
    · by_cases hp : p x = true <;>
        simp [List.filter_cons, hp, hq, ih hrest]

theorem any_filter_of_imp {α : Type} (p q : α → Bool) (l : List α)
    (h : ∀ x ∈ l, q x = true → p x = true) :
    (l.filter p).any q = l.any q := by
  induction l with
  | nil => rfl
  | cons x rest ih =>
    have hrest : ∀ y ∈ rest, q y = true → p y = true :=
      fun y hy => h y (List.mem_cons_of_mem _ hy)
    by_cases hq : q x = true
    · have hp := h x (List.mem_cons_self _ _) hq
      simp [List.filter_cons, hp, hq, List.any_cons, ih hrest]
    · by_cases hp : p x = true <;>
        simp [List.filter_cons, hp, hq, List.any_cons, ih hrest]

theorem assoc_key_eq (l : List (String × PySym)) (k : String) (f : PySym)
    (hnd : (l.map Prod.fst).Nodup) (hmem : (k, f) ∈ l) :
    ∀ p ∈ l, p.1 = k → p.2 = f := by
  induction l with
  | nil => simp
  | cons x rest ih =>
    intro p hp hpk
    have hnd2 : (x.1 :: rest.map Prod.fst).Nodup := by
      simpa only [List.map_cons] using hnd
    have hx_notin : x.1 ∉ rest.map Prod.fst := (List.nodup_cons.mp hnd2).1
    have hnd' : (rest.map Prod.fst).Nodup := (List.nodup_cons.mp hnd2).2
    rcases List.mem_cons.mp hmem with hm | hm
    · rcases List.mem_cons.mp hp with hq | hq
      · rw [hq, ← hm]
      · exfalso
        apply hx_notin
        have hmm : p.1 ∈ rest.map Prod.fst := List.mem_map_of_mem Prod.fst hq
        rw [hpk] at hmm
        rw [← hm]
        simpa using hmm
    · rcases List.mem_cons.mp hp with hq | hq
      · exfalso
        apply hx_notin
        have hkk : k ∈ rest.map Prod.fst := by
          have := List.mem_map_of_mem Prod.fst hm
          simpa using this
        rw [← hq, hpk]
        exact hkk
      · exact ih hnd' hm p hq hpk

theorem bump_aliasF (s : PySym) : (bump s).aliasF = s.aliasF := rfl

theorem bump_argv (s : PySym) : (bump s).argv = s.argv := rfl

theorem bump_uses (s : PySym) : (bump s).uses = s.uses := rfl

/-! ## The claims -/

/-- C1 (amended): for every relational-comparison node with both jump
targets assigned and any of the six operators, `gen_code` returns the
(format-substituted) left operand code, right operand code, the
`SUB`/`POP` pair, then a block of conditional branches to the true label
— exactly one conditional branch for `<`, `>`, `==`, `<>`, but exactly
two for `<=` and `>=` — followed by exactly one unconditional branch to
the false label.  (The original claim's "exactly one conditional branch"
fails for `<=` and `>=`.) -/
theorem C1_relop_both_targets (fuel : Nat) (op : String) (l r : Expr)
    (t f : String) (lc rc : List String)
    (hop : op ∈ (["<", "<=", ">", ">=", "==", "<>"] : List String))
    (hl : genCode fuel l Option.none Option.none = .ok lc)
    (hr : genCode fuel r Option.none Option.none = .ok rc) :
    ∃ condBr : List String,
      genCode (fuel + 1) (.relOp op l r) (some t) (some f)
        = .ok ((lc ++ rc).map (fmtTF t f) ++ ["SUB", "POP"] ++ condBr
            ++ ["JP :" ++ f])
      ∧ (∀ s ∈ condBr, isCondBranch s = true)
      ∧ isUncondBranch ("JP :" ++ f) = true
      ∧ condBr.length = (if op = "<=" ∨ op = ">=" then 2 else 1) := by
  simp only [List.mem_cons, List.not_mem_nil, or_false] at hop
  rcases hop with rfl | rfl | rfl | rfl | rfl | rfl
  · exact ⟨["JLESS :" ++ t], by
      simp [genCode, relTest, hl, hr, labelArg, exceptOkBind, fmtTF_SUB,
        fmtTF_POP, fmtTF_JLESS, fmtTF_JP], by simp [isCondBranch_JLESS],
      rfl, by simp⟩
  · exact ⟨["JLESS :" ++ t, "JZ :" ++ t], by
      simp [genCode, relTest, hl, hr, labelArg, exceptOkBind, fmtTF_SUB,
        fmtTF_POP, fmtTF_JLESS, fmtTF_JZ, fmtTF_JP], by
      simp [isCondBranch_JLESS, isCondBranch_JZ], rfl, by simp⟩
  · exact ⟨["JMORE :" ++ t], by
      simp [genCode, relTest, hl, hr, labelArg, exceptOkBind, fmtTF_SUB,
        fmtTF_POP, fmtTF_JMORE, fmtTF_JP], by simp [isCondBranch_JMORE],
      rfl, by simp⟩
  · exact ⟨["JMORE :" ++ t, "JZ :" ++ t], by
      simp [genCode, relTest, hl, hr, labelArg, exceptOkBind, fmtTF_SUB,
        fmtTF_POP, fmtTF_JMORE, fmtTF_JZ, fmtTF_JP], by
      simp [isCondBranch_JMORE, isCondBranch_JZ], rfl, by simp⟩
  · exact ⟨["JZ :" ++ t], by
      simp [genCode, relTest, hl, hr, labelArg, exceptOkBind, fmtTF_SUB,
        fmtTF_POP, fmtTF_JZ, fmtTF_JP], by simp [isCondBranch_JZ],
      rfl, by simp⟩
  · exact ⟨["JNZ :" ++ t], by
      simp [genCode, relTest, hl, hr, labelArg, exceptOkBind, fmtTF_SUB,
        fmtTF_POP, fmtTF_JNZ, fmtTF_JP], by simp [isCondBranch_JNZ],
      rfl, by simp⟩

/-- C1 counterexample: at `1 <= 2` with both targets assigned, the
generated code carries two conditional branches (`JLESS` and `JZ`), not
exactly one as the claim states for all six operators. -/
theorem C1_relop_counterexample :
    genCode 2 (.relOp "<=" (.constV (.int 1) .tInt) (.constV (.int 2) .tInt))
        (some "A") (some "B")
      = .ok ["PUSH 1", "PUSH 2", "SUB", "POP", "JLESS :A", "JZ :A", "JP :B"]
    ∧ (["PUSH 1", "PUSH 2", "SUB", "POP", "JLESS :A", "JZ :A",
        "JP :B"].countP isCondBranch) = 2 :=
  ⟨rfl, by decide⟩

/-- C1 witness: the amended theorem applied to `1 <= 2` with targets
`A`/`B`. -/
theorem C1_relop_both_targets_witness :
    ∃ condBr : List String,
      genCode 2 (.relOp "<=" (.constV (.int 1) .tInt) (.constV (.int 2) .tInt))
          (some "A") (some "B")
        = .ok (((["PUSH 1"] ++ ["PUSH 2"]).map (fmtTF "A" "B"))
            ++ ["SUB", "POP"] ++ condBr ++ ["JP :" ++ "B"])
      ∧ (∀ s ∈ condBr, isCondBranch s = true)
      ∧ isUncondBranch ("JP :" ++ "B") = true
      ∧ condBr.length
          = (if ("<=" : String) = "<=" ∨ ("<=" : String) = ">=" then 2
            else 1) :=
  C1_relop_both_targets 1 "<=" (.constV (.int 1) .tInt)
    (.constV (.int 2) .tInt) "A" "B" ["PUSH 1"] ["PUSH 2"] (by simp) rfl rfl

/-- C2: with two string-typed operands, the translator action
`p_boolean_relop` lets `==`/`<>` through its own checks, but the
`RelationalOperator` constructor then raises the internal error anyway —
its condition `lhs.type == str or rhs.type == str and oper not in
["==", "<>"]` fires for every string left operand because `and` binds
tighter than `or`.  Ordering operators fail earlier with the intended
type error.  The claim that string equality comparison succeeds is
contradicted by the code. -/
theorem C2_string_equality_internal_error :
    pBooleanRelop "==" (.constV (.str "'a'") .tStr) (.constV (.str "'b'") .tStr)
      = .error (.internalError "Relational operators for 'str' are not available.")
    ∧ pBooleanRelop "<>" (.constV (.str "'a'") .tStr) (.constV (.str "'b'") .tStr)
      = .error (.internalError "Relational operators for 'str' are not available.")
    ∧ pBooleanRelop "<" (.constV (.str "'a'") .tStr) (.constV (.str "'b'") .tStr)
      = .error (.invalidExpressionType "Can only compare STRING equality") :=
  ⟨rfl, rfl, rfl⟩

/-- C3: compiling a program whose only statement calls the undeclared
procedure `foo` does not fail with the linker error naming `foo`:
`code_gen`'s guard evaluates `func["code"]` on a symbol that has no
`code` key at all, so the run dies with `KeyError('code')` before the
`LogoLinkerError` raise can be reached. -/
theorem C3_undeclared_call_keyerror :
    codeGen 3 stC3 = .error (.keyError "code") := rfl

/-- C4 (amended): an `IF` with no `ELSE` branch is translated exactly
like an `IF` with an empty `ELSE` body, because `p_opt_else` returns the
empty list — never `None` — and the translator tests `p[5] is not None`:
the block is the condition (false target set to the first fresh label),
the `THEN` body, an unconditional-jump helper to a second fresh join
label, the false label, and the join label.  (The original claim that no
join label and no jump helper are produced fails.) -/
theorem C4_if_no_else_amended (cond : Expr) (body : List Expr) (c : Nat) :
    pIfThenElse cond body (pOptElse Option.none) c
      = (.blockE ([.withT cond Option.none (some (mkLabelName (c + 1)))]
          ++ body
          ++ [.withT (.boolVal true) (some (mkLabelName (c + 2))) Option.none,
            .labelE (mkLabelName (c + 1)), .labelE (mkLabelName (c + 2))]),
        c + 2) := by
  simp [pIfThenElse, pOptElse]

/-- C4 counterexample: for `IF 1 < 2 THEN END` (empty body, no `ELSE`)
the translated block has four members — condition, jump helper, false
label, join label — and is not the two-member block (condition then
false label) the claim describes. -/
theorem C4_if_no_else_counterexample :
    (pIfThenElse condC4 [] (pOptElse Option.none) 0).1
      = .blockE [.withT condC4 Option.none (some "_@trgt_1"),
          .withT (.boolVal true) (some "_@trgt_2") Option.none,
          .labelE "_@trgt_1", .labelE "_@trgt_2"]
    ∧ (pIfThenElse condC4 [] (pOptElse Option.none) 0).1
      ≠ .blockE [.withT condC4 Option.none (some "_@trgt_1"),
          .labelE "_@trgt_1"] :=
  ⟨rfl, fun h =>
    absurd (congrArg (fun e => (blockItems e).length) h) (by decide)⟩

/-- C5: for a binary arithmetic node whose operands are both constant,
the `value` property equals the spec's direct mathematical evaluation of
the operator on the two operand values, for each of the six operators. -/
theorem C5_binop_const_value (op : String) (l r : Expr) (vl vr : PyVal)
    (hop : op ∈ (["+", "-", "*", "/", "%", "^"] : List String))
    (hlc : Expr.isConst l = .ok true) (hrc : Expr.isConst r = .ok true)
    (hvl : Expr.value l = .ok vl) (hvr : Expr.value r = .ok vr) :
    Expr.value (.binOp op l r) = specDirectEval op vl vr := by
  have hc : Expr.isConst (.binOp op l r) = .ok true := by
    simp [Expr.isConst, hlc, hrc, exceptOkBind]
  simp only [List.mem_cons, List.not_mem_nil, or_false] at hop
  rcases hop with rfl | rfl | rfl | rfl | rfl | rfl <;>
    simp [Expr.value, hc, hvl, hvr, specDirectEval, exceptOkBind]

/-- C5 witness: constant folding of `2 + 3`. -/
theorem C5_binop_const_value_witness :
    Expr.value (.binOp "+" (.constV (.int 2) .tInt) (.constV (.int 3) .tInt))
      = specDirectEval "+" (.int 2) (.int 3) :=
  C5_binop_const_value "+" (.constV (.int 2) .tInt) (.constV (.int 3) .tInt)
    (.int 2) (.int 3) (by simp) rfl rfl rfl rfl

/-- C6: a `FUNCTION` symbol with usage zero that is not flagged library
contributes nothing to the generated listing: deleting it from the table
leaves `code_gen`'s output unchanged (it is dropped by the usage
selection before the emission loop), and even `FunctionDefinition.gen_code`
itself would emit the empty list for it. -/
theorem C6_unused_function_omitted (fuel : Nat) (st : SymTable) (k : String)
    (f : PySym)
    (hnd : (st.funcs.map Prod.fst).Nodup)
    (hmem : (k, f) ∈ st.funcs)
    (husage : f.usage = 0)
    (hlib : f.library = false) :
    codeGen fuel {st with funcs := st.funcs.filter (fun p => p.1 ≠ k)}
      = codeGen fuel st
    ∧ ∀ body, funcDefGenCode fuel f body = .ok [] := by
  have hkey : ∀ p ∈ st.funcs, p.1 = k → p.2.usage = 0 := by
    intro p hp h1
    rw [assoc_key_eq st.funcs k f hnd hmem p hp h1]
    exact husage
  constructor
  · have h1 : (st.funcs.filter (fun p => p.1 ≠ k)).filter
        (fun p => p.2.usage > 0) = st.funcs.filter (fun p => p.2.usage > 0) := by
      apply filter_filter_of_imp
      intro x hx hq
      simp only [decide_eq_true_eq] at hq ⊢
      intro hxk
      rw [hkey x hx hxk] at hq
      omega
    have h2 : (st.funcs.filter (fun p => p.1 ≠ k)).any
        (fun p => p.2.usage > 0 && p.2.graphics)
        = st.funcs.any (fun p => p.2.usage > 0 && p.2.graphics) := by
      apply any_filter_of_imp
      intro x hx hq
      rw [Bool.and_eq_true] at hq
      have hq1 := of_decide_eq_true hq.1
      simp only [decide_eq_true_eq]
      intro hxk
      rw [hkey x hx hxk] at hq1
      omega
    simp only [codeGen, initCode, h1, h2]
  · intro body
    by_cases hint : f.internal = true <;>
      simp [funcDefGenCode, husage, hint]

/-- C6 witness: the two-function table with `LIVE` (used) and `DEAD`
(unused, non-library). -/
theorem C6_unused_function_omitted_witness :
    (codeGen 2 {stC6 with funcs := stC6.funcs.filter (fun p => p.1 ≠ "DEAD")}
      = codeGen 2 stC6)
    ∧ ∀ body, funcDefGenCode 2 deadSymC6 body = .ok [] :=
  C6_unused_function_omitted 2 stC6 "DEAD" deadSymC6 (by decide)
    (List.Mem.tail _ (List.Mem.head _)) rfl rfl

/-- C7: behavior of `increase_symbol_usage` on the embedded table:
(1) an unresolvable name raises the internal error naming it;
(2) bumping increments the usage counter by exactly one;
(3) a resolvable symbol with no alias and empty parameter/`uses` lists
gets exactly its own counter incremented;
(4) a symbol with an alias also gets the aliasee's counter incremented
(the aliasee's parameter and `uses` lists then drive the recursion);
(5) a symbol whose parameter list names another symbol recursively
increments that symbol too, resolving it under the scope-qualification
rule (`qualifyUsageArg`) with the `VAR` class filter. -/
theorem C7_count_usage :
    (∀ fuel st n ty, locateUsage st n ty = Option.none →
      increaseSymbolUsage (fuel + 1) st n ty
        = .error (.internalError ("Increasing unknown symbol usage: " ++ n)))
    ∧ (∀ s, (bump s).usage = s.usage + 1)
    ∧ (∀ fuel st n ty loc sym, locateUsage st n ty = some (loc, sym) →
        sym.aliasF = Option.none → sym.argv = [] → sym.uses = [] →
        increaseSymbolUsage (fuel + 1) st n ty = .ok (updateAt st loc bump))
    ∧ (∀ fuel st n ty loc sym a i sym2,
        locateUsage st n ty = some (loc, sym) →
        sym.aliasF = some a →
        findScopeSym (updateAt st loc bump).scopes Option.none (pyUpper a)
            Option.none = some (i, sym2) →
        sym2.argv = [] → sym2.uses = [] →
        increaseSymbolUsage (fuel + 1) st n ty
          = .ok (updateAt (updateAt st loc bump) (.inScope i (pyUpper a))
              bump))
    ∧ (∀ fuel st n ty loc sym arg loc2 sym2,
        locateUsage st n ty = some (loc, sym) →
        sym.aliasF = Option.none →
        sym.argv = [arg] → sym.uses = [] →
        locateUsage (updateAt st loc bump) (qualifyUsageArg (bump sym) arg)
            (some "VAR") = some (loc2, sym2) →
        sym2.aliasF = Option.none → sym2.argv = [] → sym2.uses = [] →
        increaseSymbolUsage (fuel + 2) st n ty
          = .ok (updateAt (updateAt st loc bump) loc2 bump)) := by
  refine ⟨?_, ?_, ?_, ?_, ?_⟩
  · intro fuel st n ty hloc
    simp [increaseSymbolUsage, hloc]
  · intro s
    simp [bump]
  · intro fuel st n ty loc sym hloc hal har hus
    simp [increaseSymbolUsage, hloc, bump_aliasF, bump_argv, bump_uses, hal,
      har, hus, exceptPure]
  · intro fuel st n ty loc sym a i sym2 hloc hal hfind har hus
    simp [increaseSymbolUsage, hloc, bump_aliasF, bump_argv, bump_uses, hal,
      hfind, har, hus, exceptPure]
  · intro fuel st n ty loc sym arg loc2 sym2 hloc hal har hus hloc2 hal2 har2
      hus2
    simp [increaseSymbolUsage, hloc, bump_aliasF, bump_argv, bump_uses, hal,
      har, hus, hloc2, hal2, har2, hus2, exceptPure, exceptOkBind]

/-- C7 witness: an unknown name errors; the variable `X` gets its counter
bumped; the function `F` propagates the bump to its parameter `@F.A`. -/
theorem C7_count_usage_witness :
    increaseSymbolUsage 1 {} "zz" Option.none
      = .error (.internalError ("Increasing unknown symbol usage: " ++ "zz"))
    ∧ increaseSymbolUsage 1 stC7 "x" Option.none
      = .ok (updateAt stC7 (.inScope 0 "X") bump)
    ∧ increaseSymbolUsage 2 stC7b "f" Option.none
      = .ok (updateAt (updateAt stC7b (.inScope 0 "F") bump)
          (.inScope 0 "@F.A") bump) :=
  ⟨C7_count_usage.1 0 {} "zz" Option.none rfl,
   C7_count_usage.2.2.1 0 stC7 "x" Option.none (.inScope 0 "X") xVarC7
     rfl rfl rfl rfl,
   C7_count_usage.2.2.2.2 0 stC7b "f" Option.none (.inScope 0 "F") funSymC7
     "@F.A" (.inScope 0 "@F.A") argVarC7 rfl rfl rfl rfl rfl rfl rfl rfl⟩

/-- C8: a later `add_symbol` call for an existing symbol with a real
declaration line and a recorded literal value leaves the declaration
line and the value untouched — the `lineno` parameter never reaches the
merge, and the supplied `value` keyword is deleted before the update —
while the other supplied fields are merged into the symbol. -/
theorem C8_add_symbol_preserves (st : SymTable) (n symtype : String)
    (ln : Int) (kw : Patch) (i : Nat) (sym0 : PySym)
    (hfind : findScopeSym st.scopes Option.none (pyUpper n) Option.none
      = some (i, sym0))
    (htype : sym0.type = symtype)
    (hline : sym0.lineno ≥ 0)
    (hval : sym0.value.isSome = true)
    (hname : kw.pname = Option.none) :
    addSymbol st n symtype ln kw
      = .ok (updateAt st (.inScope i (pyUpper n))
            (fun _ =>
              normalizeArgv (applyPatch sym0 {kw with pvalue := Option.none})),
          normalizeArgv (applyPatch sym0 {kw with pvalue := Option.none}))
    ∧ (normalizeArgv (applyPatch sym0 {kw with pvalue := Option.none})).lineno
        = sym0.lineno
    ∧ (normalizeArgv (applyPatch sym0 {kw with pvalue := Option.none})).value
        = sym0.value
    ∧ (normalizeArgv (applyPatch sym0 {kw with pvalue := Option.none})).datatype
        = (if kw.pdatatype.isSome then kw.pdatatype else sym0.datatype)
    ∧ (normalizeArgv (applyPatch sym0 {kw with pvalue := Option.none})).usage
        = kw.pusage.getD sym0.usage := by
  obtain ⟨pn, pv, pd, pa, pu, pal, pus, plib, pint, pg, pt, pc⟩ := kw
  have hpn : pn = Option.none := hname
  subst hpn
  cases pv with
  | none =>
    refine ⟨?_, ?_, ?_, ?_, ?_⟩ <;>
      simp [addSymbol, hfind, htype, hline, hval, normalizeArgv, applyPatch]
  | some v =>
    refine ⟨?_, ?_, ?_, ?_, ?_⟩ <;>
      simp [addSymbol, hfind, htype, hline, hval, normalizeArgv, applyPatch]

/-- C8 witness: re-declaring `X` (declared at line 3 with value 5) with
a new value 9 and a new datatype keeps line and value and merges the
datatype. -/
theorem C8_add_symbol_preserves_witness :
    addSymbol stC8 "x" "VAR" 9 kwC8
      = .ok (updateAt stC8 (.inScope 0 "X")
            (fun _ =>
              normalizeArgv
                (applyPatch xValSymC8 {kwC8 with pvalue := Option.none})),
          normalizeArgv (applyPatch xValSymC8 {kwC8 with pvalue := Option.none}))
    ∧ (normalizeArgv
        (applyPatch xValSymC8 {kwC8 with pvalue := Option.none})).lineno
        = xValSymC8.lineno
    ∧ (normalizeArgv
        (applyPatch xValSymC8 {kwC8 with pvalue := Option.none})).value
        = xValSymC8.value
    ∧ (normalizeArgv
        (applyPatch xValSymC8 {kwC8 with pvalue := Option.none})).datatype
        = (if kwC8.pdatatype.isSome then kwC8.pdatatype else xValSymC8.datatype)
    ∧ (normalizeArgv
        (applyPatch xValSymC8 {kwC8 with pvalue := Option.none})).usage
        = kwC8.pusage.getD xValSymC8.usage :=
  C8_add_symbol_preserves stC8 "x" "VAR" 9 kwC8 0 xValSymC8 rfl rfl
    (by decide) rfl rfl

/-- C9 (amended): symbol lookup is case-insensitive in the scope chain —
`resolve` depends only on the upper-cased query, and a freshly declared
symbol is found under any casing while its scope is on the stack — but
the finalized-table fallback looks the upper-cased name up against keys
stored under the symbol's original-case FQSN, so after the scope closes
a symbol is found only when its stored FQSN equals the upper-cased
query (e.g. names declared in upper case); a declared name containing
lowercase letters is not found through the fallback.  (The original
claim that the fallback is case-insensitive for every declared symbol
fails.) -/
theorem C9_resolve_case_amended :
    (∀ st q1 q2 scn ty, pyUpper q1 = pyUpper q2 →
      getSymbol st q1 scn ty = getSymbol st q2 scn ty)
    ∧ (∀ st q ty,
        findScopeSym st.scopes Option.none (pyUpper q) (some ty)
          = Option.none →
        getSymbol st q Option.none (some ty)
          = alookup (getClass st ty) (pyUpper q))
    ∧ (∀ st n symtype ln kw st2 sym q,
        findScopeSym st.scopes Option.none (pyUpper n) Option.none
          = Option.none →
        addSymbol st n symtype ln kw = .ok (st2, sym) →
        pyUpper q = pyUpper n →
        getSymbol st2 q Option.none Option.none = some sym) := by
  refine ⟨?_, ?_, ?_⟩
  · intro st q1 q2 scn ty h
    simp [getSymbol, h]
  · intro st q ty h
    simp [getSymbol, h]
  · intro st n symtype ln kw st2 sym q hfind hadd hq
    cases hsc : st.scopes with
    | nil =>
      rw [hsc] at hfind
      simp [addSymbol, hsc, hfind] at hadd
    | cons s rest =>
      rw [hsc] at hfind
      simp [addSymbol, hsc, hfind] at hadd
      obtain ⟨h1, h2⟩ := hadd
      subst h1
      subst h2
      simp [getSymbol, findScopeSym, hq, alookup_aset]

/-- C9 witness: the fallback equation at the closed `square` table, and
a fresh declaration of `square` found under the spelling `SQUARE` while
its scope is still open. -/
theorem C9_resolve_case_amended_witness :
    getSymbol sqSt2 "square" Option.none (some "FUNCTION")
      = alookup (getClass sqSt2 "FUNCTION") "SQUARE"
    ∧ getSymbol sqSt1 "SQUARE" Option.none Option.none = some symSqC9 :=
  ⟨C9_resolve_case_amended.2.1 sqSt2 "square" "FUNCTION" rfl,
   C9_resolve_case_amended.2.2 (pushScope {} "") "square" "FUNCTION" 3 {}
     sqSt1 symSqC9 "SQUARE" rfl (by rfl) rfl⟩

/-- C9 counterexample: the function `square` (declared in lower case,
scope closed, present in the finalized table under the key `square`) is
found case-insensitively while its scope is open, but is found by the
class-filter fallback under NO casing — not even its exact declared
spelling — whereas the upper-case declared `SQUARE` is found from the
lower-case query.  This refutes the claim's fallback half. -/
theorem C9_resolve_counterexample :
    (alookup sqSt2.funcs "square").isSome = true
    ∧ (getSymbol sqSt1 "SQUARE" Option.none (some "FUNCTION")).isSome = true
    ∧ getSymbol sqSt2 "square" Option.none (some "FUNCTION") = Option.none
    ∧ getSymbol sqSt2 "SQUARE" Option.none (some "FUNCTION") = Option.none
    ∧ (getSymbol sqUpSt2 "square" Option.none (some "FUNCTION")).isSome
        = true :=
  ⟨rfl, rfl, rfl, rfl, rfl⟩

/-- C10: a boolean combinator whose operands are all constant never
returns an instruction list from `gen_code`: its constant path reads
`self.value`, an attribute `BooleanOperator` does not define, so the
call raises `AttributeError` (and even past that it would call the
nonexistent `code_gen` method of the constructed `BooleanValue`). -/
theorem C10_const_boolean_gen_raises (op : String) (l : Expr) (r : Option Expr)
    (tt ff : Option String) (fuel : Nat)
    (hlc : Expr.isConst l = .ok true)
    (hrc : ∀ rr, r = some rr → Expr.isConst rr = .ok true) :
    genCode (fuel + 1) (.boolOp op l r) tt ff
      = .error (.attributeError "value") := by
  have hc : Expr.isConst (.boolOp op l r) = .ok true := by
    cases r with
    | none => simp [Expr.isConst, hlc, exceptOkBind]
    | some rr => simp [Expr.isConst, hlc, hrc rr rfl, exceptOkBind]
  have hv : Expr.value (.boolOp op l r) = .error (.attributeError "value") := by
    simp [Expr.value]
  simp [genCode, hc, hv, exceptOkBind, exceptErrBind]

/-- C10 witness: `TRUE AND FALSE` with both targets assigned raises. -/
theorem C10_const_boolean_gen_raises_witness :
    genCode 1 (.boolOp "AND" (.boolVal true) (some (.boolVal false)))
        (some "T") (some "F")
      = .error (.attributeError "value") :=
  C10_const_boolean_gen_raises "AND" (.boolVal true) (some (.boolVal false))
    (some "T") (some "F") 0 rfl (fun rr h => by cases h; rfl)
